import Mathlib

/-!
Verification of the natural-language specification of the
`fina-4380-2022-fall` notebooks (McKinney Chapter 10 on data aggregation
and group operations, and Lewinson Chapter 1 on financial data) against a
shallow embedding of the notebook code.

Numeric series are embedded as lists of integers; dataframes as lists of
rows (association lists from column names to values); the notebook cell
sequence as explicit lists of statements transcribed cell by cell from the
two notebooks.
-/

/-! ## Series primitives (embedding of the numpy/pandas library calls used) -/

/-- Embedding of the library call `arr.max()`: the maximum of a numeric
array, `none` on an empty array (where the library raises). -/
def seriesMax : List Int → Option Int
  | [] => none
  | a :: r => some (r.foldl max a)

/-- Embedding of the library call `arr.min()`: the minimum of a numeric
array, `none` on an empty array (where the library raises). -/
def seriesMin : List Int → Option Int
  | [] => none
  | a :: r => some (r.foldl min a)

/-- Embedding of the notebook's own definition
`def peak_to_peak(arr): return arr.max() - arr.min()`
(mckinney-10, Data Aggregation section). -/
def peak_to_peak (arr : List Int) : Option Int :=
  match seriesMax arr, seriesMin arr with
  | some hi, some lo => some (hi - lo)
  | _, _ => none

/-! ### Fold bounds for max and min -/

theorem le_foldl_max (a : Int) (r : List Int) :
    ∀ x ∈ a :: r, x ≤ r.foldl max a := by
  induction r generalizing a with
  | nil => intro x hx; simp at hx; simp [hx]
  | cons b t ih =>
    intro x hx
    have hhead : max a b ≤ t.foldl max (max a b) :=
      ih (max a b) (max a b) (List.mem_cons_self _ _)
    simp only [List.mem_cons] at hx
    rcases hx with rfl | rfl | hx
    · exact le_trans (le_max_left x b) hhead
    · exact le_trans (le_max_right a x) hhead
    · exact ih (max a b) x (List.mem_cons_of_mem _ hx)

theorem foldl_min_le (a : Int) (r : List Int) :
    ∀ x ∈ a :: r, r.foldl min a ≤ x := by
  induction r generalizing a with
  | nil => intro x hx; simp at hx; simp [hx]
  | cons b t ih =>
    intro x hx
    have hhead : t.foldl min (min a b) ≤ min a b :=
      ih (min a b) (min a b) (List.mem_cons_self _ _)
    simp only [List.mem_cons] at hx
    rcases hx with rfl | rfl | hx
    · exact le_trans hhead (min_le_left x b)
    · exact le_trans hhead (min_le_right a x)
    · exact ih (min a b) x (List.mem_cons_of_mem _ hx)

theorem foldl_max_mem (a : Int) (r : List Int) :
    r.foldl max a ∈ a :: r := by
  induction r generalizing a with
  | nil => simp
  | cons b t ih =>
    simp only [List.foldl_cons]
    have h := ih (max a b)
    rcases List.mem_cons.mp h with he | ht
    · rcases max_choice a b with hab | hab
      · exact List.mem_cons.mpr (Or.inl (he.trans hab))
      · exact List.mem_cons.mpr (Or.inr (List.mem_cons.mpr (Or.inl (he.trans hab))))
    · exact List.mem_cons.mpr (Or.inr (List.mem_cons.mpr (Or.inr ht)))

theorem foldl_min_mem (a : Int) (r : List Int) :
    r.foldl min a ∈ a :: r := by
  induction r generalizing a with
  | nil => simp
  | cons b t ih =>
    simp only [List.foldl_cons]
    have h := ih (min a b)
    rcases List.mem_cons.mp h with he | ht
    · rcases min_choice a b with hab | hab
      · exact List.mem_cons.mpr (Or.inl (he.trans hab))
      · exact List.mem_cons.mpr (Or.inr (List.mem_cons.mpr (Or.inl (he.trans hab))))
    · exact List.mem_cons.mpr (Or.inr (List.mem_cons.mpr (Or.inr ht)))

/-- C8: For every non-empty numeric array arr, peak_to_peak(arr) returns
arr.max() minus arr.min(); the result is non-negative, and it equals zero
exactly when all elements of arr are equal. -/
theorem C8_peak_to_peak_max_minus_min (arr : List Int) (h : arr ≠ []) :
    ∃ hi lo, seriesMax arr = some hi ∧ seriesMin arr = some lo ∧
      peak_to_peak arr = some (hi - lo) ∧ 0 ≤ hi - lo ∧
      (hi - lo = 0 ↔ ∀ x ∈ arr, ∀ y ∈ arr, x = y) := by
  obtain ⟨a, r, rfl⟩ := List.exists_cons_of_ne_nil h
  refine ⟨r.foldl max a, r.foldl min a, rfl, rfl, ?_, ?_, ?_⟩
  · simp [peak_to_peak, seriesMax, seriesMin]
  · have h1 : r.foldl min a ≤ a := foldl_min_le a r a (List.mem_cons_self _ _)
    have h2 : a ≤ r.foldl max a := le_foldl_max a r a (List.mem_cons_self _ _)
    omega
  · constructor
    · intro hz x hx y hy
      have hx1 : x ≤ r.foldl max a := le_foldl_max a r x hx
      have hx2 : r.foldl min a ≤ x := foldl_min_le a r x hx
      have hy1 : y ≤ r.foldl max a := le_foldl_max a r y hy
      have hy2 : r.foldl min a ≤ y := foldl_min_le a r y hy
      omega
    · intro hall
      have hM : r.foldl max a ∈ a :: r := foldl_max_mem a r
      have hm : r.foldl min a ∈ a :: r := foldl_min_mem a r
      have := hall _ hM _ hm
      omega

/-- Witness for C8 at the concrete array [3, 1, 2]. -/
theorem C8_peak_to_peak_max_minus_min_witness :
    ([3, 1, 2] : List Int) ≠ [] ∧
    (∃ hi lo, seriesMax [3, 1, 2] = some hi ∧ seriesMin [3, 1, 2] = some lo ∧
      peak_to_peak [3, 1, 2] = some (hi - lo) ∧ 0 ≤ hi - lo ∧
      (hi - lo = 0 ↔ ∀ x ∈ ([3, 1, 2] : List Int), ∀ y ∈ ([3, 1, 2] : List Int), x = y)) :=
  ⟨by decide, C8_peak_to_peak_max_minus_min [3, 1, 2] (by decide)⟩

/-! ## Dataframe rows and the notebook's `top` function -/

/-- A dataframe row: an association list from column names to values. -/
abbrev Row := List (String × Int)

/-- The value a row holds in column `col`. -/
def colVal (col : String) (r : Row) : Int :=
  (r.lookup col).getD 0

/-- Boolean comparison of two rows by column `col`, the sort key
`sort_values(col)` uses. -/
def rowLe (col : String) (r s : Row) : Bool :=
  decide (colVal col r ≤ colVal col s)

/-- Embedding of the library call `x.sort_values(col)`: the rows of `x`
sorted in ascending order of column `col`. -/
def sort_values (col : String) (x : List Row) : List Row :=
  x.mergeSort (rowLe col)

/-- Embedding of the library call `.head(n)`: the first `n` rows. -/
def head (n : Nat) (x : List Row) : List Row :=
  x.take n

/-- Embedding of the notebook's own definition
`def top(x, col, n=1): return x.sort_values(col).head(n)`
(mckinney-10, Apply: General split-apply-combine section). -/
def top (x : List Row) (col : String) (n : Nat := 1) : List Row :=
  head n (sort_values col x)

theorem rowLe_trans (col : String) (a b c : Row) :
    rowLe col a b = true → rowLe col b c = true → rowLe col a c = true := by
  simp only [rowLe, decide_eq_true_eq]
  exact le_trans

theorem rowLe_total (col : String) (a b : Row) :
    (rowLe col a b || rowLe col b a) = true := by
  simp only [rowLe, Bool.or_eq_true, decide_eq_true_eq]
  exact le_total _ _

theorem sort_values_pairwise (col : String) (x : List Row) :
    List.Pairwise (fun r s => colVal col r ≤ colVal col s) (sort_values col x) := by
  have h := @List.sorted_mergeSort Row (rowLe col)
    (rowLe_trans col) (rowLe_total col) x
  exact h.imp (fun hab => by simpa [rowLe, decide_eq_true_eq] using hab)

/-- C9: For every dataframe x containing a column col and every n ≥ 0
(default n = 1), top(x, col, n) returns the n rows of x with the smallest
values of col, sorted in ascending order of col; the result has at most n
rows, and every returned row is a row of x. The rows of x not returned are
some list rest, and every returned row has a col value at most that of
every row in rest. -/
theorem C9_top_smallest_n (x : List Row) (col : String) (n : Nat) :
    (top x col n).length ≤ n ∧
    (∀ r ∈ top x col n, r ∈ x) ∧
    List.Pairwise (fun r s => colVal col r ≤ colVal col s) (top x col n) ∧
    ∃ rest, (top x col n ++ rest).Perm x ∧
      ∀ r ∈ top x col n, ∀ s ∈ rest, colVal col r ≤ colVal col s := by
  have hperm : (sort_values col x).Perm x := List.mergeSort_perm x (rowLe col)
  have hpw := sort_values_pairwise col x
  refine ⟨?_, ?_, ?_, ?_⟩
  · simp [top, head]
  · intro r hr
    exact hperm.mem_iff.mp (List.take_subset n _ hr)
  · exact hpw.sublist (List.take_sublist n _)
  · refine ⟨(sort_values col x).drop n, ?_, ?_⟩
    · simpa [top, head, List.take_append_drop] using hperm
    · have hsplit : sort_values col x =
          (sort_values col x).take n ++ (sort_values col x).drop n :=
        (List.take_append_drop n _).symm
      rw [hsplit] at hpw
      exact fun r hr s hs => (List.pairwise_append.mp hpw).2.2 r hr s hs


/-! ## C1: the notebook-defined functions are plain library-call compositions -/

/-- Following the spec's words: the body of `peak_to_peak` as the plain
composition of the two library calls `arr.max()` and `arr.min()` combined
by subtraction, written directly with the library embeddings and the
standard Option combinators. -/
def peak_to_peak_asLibraryCalls (arr : List Int) : Option Int :=
  (seriesMax arr).bind (fun hi => (seriesMin arr).map (fun lo => hi - lo))

/-- Following the spec's words: the body of `top` as the plain composition
of the two library calls `sort_values(col)` and `head(n)`. -/
def top_asLibraryCalls (x : List Row) (col : String) (n : Nat := 1) : List Row :=
  head n (sort_values col x)

/-- C1: every function the notebooks themselves define (peak_to_peak, top)
is extensionally equal to the plain composition of library calls in its
body and adds no original computation. -/
theorem C1_functions_are_library_compositions :
    (∀ arr : List Int, peak_to_peak arr = peak_to_peak_asLibraryCalls arr) ∧
    (∀ (x : List Row) (col : String) (n : Nat), top x col n = top_asLibraryCalls x col n) := by
  constructor
  · intro arr
    cases arr with
    | nil => rfl
    | cons a r => rfl
  · intro x col n
    rfl

/-! ## The notebook cell sequences

A statement-level model of the code cells of the two notebooks, transcribed
cell by cell. Each statement records which names it defines, reads, or
mutates, whether it constructs the cached session or calls the remote
download, seeds the random generator, aggregates, or displays/plots. -/

inductive Stmt where
  | importLibs
  | setDisplayOptions
  | createSession (expireAfter : String)
  | seedRng (seed : Nat)
  | assign (target : String) (reads : List String)
  | assignAgg (target : String) (reads : List String)
  | assignDownload (target : String) (tickers : String) (reads : List String)
  | mutateCol (target : String) (col : String) (reads : List String)
  | defineFun (name : String)
  | displayAgg (reads : List String)
  | display (reads : List String)
  | plot (reads : List String)
  deriving DecidableEq

/-- Names a statement binds in the kernel namespace. -/
def stmtDefines : Stmt → List String
  | .createSession _ => ["session"]
  | .assign t _ => [t]
  | .assignAgg t _ => [t]
  | .assignDownload t _ _ => [t]
  | .defineFun n => [n]
  | _ => []

/-- Names a statement reads. -/
def stmtReads : Stmt → List String
  | .assign _ rs => rs
  | .assignAgg _ rs => rs
  | .assignDownload _ _ rs => rs
  | .mutateCol _ _ rs => rs
  | .displayAgg rs => rs
  | .display rs => rs
  | .plot rs => rs
  | _ => []

/-- Names a statement mutates in place. -/
def stmtMutates : Stmt → List String
  | .mutateCol t _ _ => [t]
  | _ => []

/-- The code cells of mckinney-10 (McKinney Chapter 10), in order. -/
def mckinneyCells : List (List Stmt) := [
  [.importLibs],
  [.setDisplayOptions],
  [.importLibs, .createSession "1D", .importLibs],
  [.seedRng 42, .assign "df" []],
  [.displayAgg ["df"]],
  [.displayAgg ["df"]],
  [.assign "grouped" ["df"]],
  [.display ["grouped"]],
  [.displayAgg ["grouped"]],
  [.displayAgg ["df"]],
  [.displayAgg ["df"]],
  [.assignAgg "means" ["df"], .display ["means"]],
  [.display ["means"]],
  [.displayAgg ["df"]],
  [.displayAgg ["df"]],
  [.display ["df"]],
  [.display ["df"]],
  [.displayAgg ["df"]],
  [.seedRng 42, .assign "people" []],
  [.displayAgg ["people"]],
  [.assign "key_list" [], .displayAgg ["people", "key_list"]],
  [.assign "d" [], .displayAgg ["people", "d"]],
  [.assign "columns" [], .assign "hier_df" ["columns"]],
  [.displayAgg ["hier_df"]],
  [.displayAgg ["hier_df"]],
  [.displayAgg ["hier_df"]],
  [.displayAgg ["df"]],
  [.defineFun "peak_to_peak"],
  [.displayAgg ["df", "peak_to_peak"]],
  [.displayAgg ["df"]],
  [.defineFun "top"],
  [.displayAgg ["df", "top"]],
  [.displayAgg ["df", "top"]],
  [.assignDownload "ind" "^GSPC ^DJI ^IXIC ^FTSE ^N225 ^HSI" ["session"]],
  [.displayAgg ["ind"]],
  [.displayAgg ["ind"]],
  [.seedRng 42, .assign "df" []],
  [.seedRng 42, .assign "people" []],
  [.assignDownload "faang" "META AAPL AMZN NFLX GOOG" ["session"],
   .mutateCol "faang" "columns.names" ["faang"],
   .mutateCol "faang" "Return" ["faang"]]]

/-- The code cells of the Lewinson Chapter 1 notebook, in order. -/
def lewinsonCells : List (List Stmt) := [
  [.importLibs],
  [.setDisplayOptions],
  [.importLibs, .createSession "1D"],
  [],
  [.assignDownload "spy" "SPY" ["session"]],
  [.mutateCol "spy" "Return" ["spy"]],
  [.mutateCol "spy" "log Return" ["spy"]],
  [.displayAgg ["spy"]],
  [.displayAgg ["spy"]],
  [.plot ["spy"], .assign "xs" ["spy"], .assign "ys" ["spy", "xs"], .plot ["xs", "ys"]],
  [.assignAgg "spy_m" ["spy"]],
  [.plot ["spy_m"]],
  [.assign "N" [], .assignAgg "spy_lags" ["spy", "N"], .assignAgg "corrs" ["spy_lags"],
   .assignAgg "serrs" ["corrs", "spy_lags"], .plot ["corrs", "serrs", "N"]],
  [.assign "N" [], .assignAgg "spy_lags" ["spy", "N"], .assignAgg "corrs" ["spy_lags"],
   .assignAgg "serrs" ["corrs", "spy_lags"], .plot ["corrs", "serrs", "N"]],
  [.assignAgg "spy_m" ["spy"]],
  [.plot ["spy_m"]]]

/-- The statements of mckinney-10, flattened in execution order. -/
def mckinneyStmts : List Stmt := mckinneyCells.flatten

/-- The statements of the Lewinson notebook, flattened in execution order. -/
def lewinsonStmts : List Stmt := lewinsonCells.flatten


/-- Names a whole cell binds. -/
def cellDefines (c : List Stmt) : List String :=
  (c.map stmtDefines).flatten

/-- Names a whole cell reads. -/
def cellReads (c : List Stmt) : List String :=
  (c.map stmtReads).flatten

/-- Names a whole cell mutates. -/
def cellMutates (c : List Stmt) : List String :=
  (c.map stmtMutates).flatten

/-- The C3 claim as stated, for one notebook: no table constructed in one
cell is read or mutated by any later cell. -/
def tablesEphemeral (cells : List (List Stmt)) : Prop :=
  ∀ i j : Nat, i < j → ∀ n ∈ cellDefines (cells.getD i []),
    n ∉ cellReads (cells.getD j []) ∧ n ∉ cellMutates (cells.getD j [])

/-- Checks that, walking the statements in execution order, every name a
statement reads or mutates was defined by an earlier statement. -/
def noUseBeforeDef (defined : List String) : List Stmt → Bool
  | [] => true
  | s :: rest =>
      ((stmtReads s ++ stmtMutates s).all (fun n => defined.contains n)) &&
      noUseBeforeDef (defined ++ stmtDefines s) rest

/-- C3 counterexample: in both notebooks a table constructed in one cell
is used by a later cell — df (constructed in mckinney-10 cell 3, 0-based)
is read by cell 4, and spy (downloaded in Lewinson cell 4) is mutated by
cell 5 (the `spy['Return'] = ...` assignment). -/
theorem C3_counterexample_cross_cell_use :
    ¬ tablesEphemeral mckinneyCells ∧ ¬ tablesEphemeral lewinsonCells := by
  constructor
  · intro h
    have hdf := h 3 4 (by omega) "df" (by decide)
    exact hdf.1 (by decide)
  · intro h
    have hspy := h 4 5 (by omega) "spy" (by decide)
    exact hspy.2 (by decide)

/-- C3 amended: tables constructed in one cell persist in the kernel
namespace for the rest of the notebook session — later cells read them
(df) and mutate them (spy) — while no cell uses a table before an earlier
statement has constructed it. -/
theorem C3_amended_tables_live_across_cells :
    ("df" ∈ cellDefines (mckinneyCells.getD 3 []) ∧
     "df" ∈ cellReads (mckinneyCells.getD 4 [])) ∧
    ("spy" ∈ cellDefines (lewinsonCells.getD 4 []) ∧
     "spy" ∈ cellMutates (lewinsonCells.getD 5 [])) ∧
    noUseBeforeDef [] mckinneyStmts = true ∧
    noUseBeforeDef [] lewinsonStmts = true := by
  decide

/-- The expire_after arguments of the CachedSession constructions in a
statement list, in order. -/
def sessionExpirations (stmts : List Stmt) : List String :=
  stmts.foldr (fun s acc => match s with | .createSession e => e :: acc | _ => acc) []

/-- C4: in each notebook the cached session is constructed exactly once,
with an expiration of exactly one day ('1D'), and no later statement
rebinds or mutates the session other than that construction. -/
theorem C4_session_expiration_fixed_one_day :
    sessionExpirations mckinneyStmts = ["1D"] ∧
    sessionExpirations lewinsonStmts = ["1D"] ∧
    (∀ s ∈ mckinneyStmts ++ lewinsonStmts,
      ("session" ∈ stmtDefines s ∨ "session" ∈ stmtMutates s) →
        s = Stmt.createSession "1D") := by
  decide

/-- C6: every worked example proceeds construct-then-aggregate-then-display:
no statement aggregates or displays a table before the statement sequence
has constructed it (noUseBeforeDef), and the cited example pipelines occur
in order — ind is downloaded in mckinney-10 cell 33 and pivoted/displayed
in cells 34 and 35; spy is downloaded in Lewinson cell 4, the monthly
aggregate spy_m is built in cell 10, and spy_m is plotted in cell 11. -/
theorem C6_construct_aggregate_display_order :
    noUseBeforeDef [] mckinneyStmts = true ∧
    noUseBeforeDef [] lewinsonStmts = true ∧
    "ind" ∈ cellDefines (mckinneyCells.getD 33 []) ∧
    Stmt.displayAgg ["ind"] ∈ mckinneyCells.getD 34 [] ∧
    Stmt.displayAgg ["ind"] ∈ mckinneyCells.getD 35 [] ∧
    "spy" ∈ cellDefines (lewinsonCells.getD 4 []) ∧
    Stmt.assignAgg "spy_m" ["spy"] ∈ lewinsonCells.getD 10 [] ∧
    Stmt.plot ["spy_m"] ∈ lewinsonCells.getD 11 [] := by
  decide

/-! ## C2: library failures propagate unchanged -/

/-- A value in the notebook kernel namespace, as far as the claims need:
a downloaded data frame, the cached session, or some other defined value. -/
inductive Val where
  | frame (rows : List Row)
  | cachedSession (expireAfter : String)
  | defined
  deriving DecidableEq

/-- The kernel namespace: names bound so far (later bindings shadow). -/
abbrev Env := List (String × Val)

/-- One statement run against the external world `world` (the remote
financial-data API). This is the Python semantics the notebooks rely on,
with no exception handler anywhere in either notebook: a library call
that raises surfaces the error, and the assignment target is not bound. -/
def runStmt (world : String → Except String (List Row)) (env : Env) :
    Stmt → Except String Env
  | .importLibs => .ok env
  | .setDisplayOptions => .ok env
  | .createSession e => .ok (("session", Val.cachedSession e) :: env)
  | .seedRng _ => .ok env
  | .assign t _ => .ok ((t, Val.defined) :: env)
  | .assignAgg t _ => .ok ((t, Val.defined) :: env)
  | .assignDownload t tickers _ =>
      match world tickers with
      | .error e => .error e
      | .ok f => .ok ((t, Val.frame f) :: env)
  | .mutateCol t _ _ => .ok ((t, Val.defined) :: env)
  | .defineFun n => .ok ((n, Val.defined) :: env)
  | .displayAgg _ => .ok env
  | .display _ => .ok env
  | .plot _ => .ok env

/-- Run the statements of a cell in order; the first uncaught error stops
the cell and is reported to the cell output, with the kernel namespace
left exactly as the completed statements left it. -/
def runStmts (world : String → Except String (List Row)) (env : Env) :
    List Stmt → Env × Option String
  | [] => (env, none)
  | s :: rest =>
      match runStmt world env s with
      | .error e => (env, some e)
      | .ok env2 => runStmts world env2 rest

/-- C2: any failure raised inside a library call propagates unchanged to
the notebook cell output: for every download statement appearing in either
notebook, if the remote call errors then the statement re-raises exactly
that error, and a cell reaching that statement stops with the surrounding
kernel namespace unchanged. -/
theorem C2_library_errors_propagate_unchanged
    (world : String → Except String (List Row)) (env : Env)
    (t tickers : String) (rs : List String) (rest : List Stmt) (e : String)
    (_hsrc : Stmt.assignDownload t tickers rs ∈ mckinneyStmts ++ lewinsonStmts)
    (herr : world tickers = .error e) :
    runStmt world env (Stmt.assignDownload t tickers rs) = .error e ∧
    runStmts world env (Stmt.assignDownload t tickers rs :: rest) = (env, some e) := by
  constructor
  · simp [runStmt, herr]
  · simp [runStmts, runStmt, herr]

/-- Witness for C2: the Lewinson download `spy = yf.download('SPY', ...)`
against a world in which the remote call raises an HTTP error. -/
theorem C2_library_errors_propagate_unchanged_witness :
    (Stmt.assignDownload "spy" "SPY" ["session"] ∈ mckinneyStmts ++ lewinsonStmts ∧
     (fun _ : String => (Except.error "HTTPError" : Except String (List Row))) "SPY"
       = Except.error "HTTPError") ∧
    (runStmt (fun _ => Except.error "HTTPError") []
       (Stmt.assignDownload "spy" "SPY" ["session"]) = Except.error "HTTPError" ∧
     runStmts (fun _ => Except.error "HTTPError") []
       [Stmt.assignDownload "spy" "SPY" ["session"]] = ([], some "HTTPError")) :=
  ⟨⟨by decide, rfl⟩,
   C2_library_errors_propagate_unchanged (fun _ => Except.error "HTTPError") []
     "spy" "SPY" ["session"] [] "HTTPError" (by decide) rfl⟩


/-! ## C5: the cached session avoids repeated network calls -/

/-- Modelled from the spec: the `requests_cache.CachedSession` both
notebooks construct is third-party library code not present in this
repository. The spec describes it as "an on-disk HTTP response cache with
a fixed expiration policy" "used to avoid repeated network calls to a
financial-data API". The model keeps, per request, the stored response
and the time it was stored. -/
structure CachedHttpSession where
  expireAfter : Nat
  entries : List (String × (List Row × Nat))
  deriving DecidableEq

/-- One day in seconds, the expiration the argument '1D' denotes. -/
def oneDay : Nat := 86400

/-- One request on the cached session at time `now` against network `net`:
a cached response younger than `expireAfter` is served from the cache,
anything else goes to the network and refreshes the cache. Returns the
response, the updated session, and the number of network calls made. -/
def CachedHttpSession.get (s : CachedHttpSession) (now : Nat)
    (net : String → List Row) (r : String) : List Row × CachedHttpSession × Nat :=
  match s.entries.lookup r with
  | some (resp, storedAt) =>
      if now - storedAt < s.expireAfter then (resp, s, 0)
      else (net r, ⟨s.expireAfter, (r, (net r, now)) :: s.entries⟩, 1)
  | none => (net r, ⟨s.expireAfter, (r, (net r, now)) :: s.entries⟩, 1)

/-- C5: a request repeated while its cached response is younger than the
one-day expiration is served from the cache — the stored response is
returned, the session is unchanged, and zero network calls happen. -/
theorem C5_cache_hit_performs_no_network_call
    (entries : List (String × (List Row × Nat))) (now t0 : Nat)
    (net : String → List Row) (r : String) (resp : List Row)
    (hlook : entries.lookup r = some (resp, t0))
    (hyoung : now - t0 < oneDay) :
    (CachedHttpSession.mk oneDay entries).get now net r
      = (resp, CachedHttpSession.mk oneDay entries, 0) := by
  simp [CachedHttpSession.get, hlook, hyoung]

/-- Witness for C5: a session holding a response for the SPY request
stored at time 0, repeated at time 100. -/
theorem C5_cache_hit_performs_no_network_call_witness :
    (([("SPY", (([] : List Row), 0))]).lookup "SPY" = some (([] : List Row), 0) ∧
      100 - 0 < oneDay) ∧
    (CachedHttpSession.mk oneDay [("SPY", ([], 0))]).get 100 (fun _ => []) "SPY"
      = ([], CachedHttpSession.mk oneDay [("SPY", ([], 0))], 0) :=
  ⟨⟨by decide, by decide⟩,
   C5_cache_hit_performs_no_network_call [("SPY", ([], 0))] 100 0 (fun _ => [])
     "SPY" [] (by decide) (by decide)⟩

/-! ## C7: seeded construction of the demonstration tables is deterministic -/

/-- Modelled from the spec: numpy's global pseudo-random generator, which
the notebooks only seed and draw from. The generator is a deterministic
function of its state; `np.random.seed(n)` resets the global state to a
function of `n` alone. A linear congruential step stands in for the
library's Mersenne Twister; only determinism and state threading matter
for the claim. -/
abbrev RngState := Nat

/-- Embedding of `np.random.seed(n)`. -/
def npRandomSeed (n : Nat) : RngState := n

/-- One pseudo-random draw: a value and the successor state. -/
def nextRand (s : RngState) : Int × RngState :=
  let s2 := (s * 1103515245 + 12345) % 2147483648
  (Int.ofNat s2 - 1073741824, s2)

/-- Embedding of `np.random.randn(k)`: k draws, threading the state. -/
def randn : Nat → RngState → List Int × RngState
  | 0, s => ([], s)
  | k + 1, s =>
      let (v, s2) := nextRand s
      let (vs, s3) := randn k s2
      (v :: vs, s3)

/-- Embedding of `np.random.randn(rows, cols)`: a drawn matrix. -/
def randnMatrix : Nat → Nat → RngState → List (List Int) × RngState
  | 0, _, s => ([], s)
  | r + 1, c, s =>
      let (row, s2) := randn c s
      let (rows, s3) := randnMatrix r c s2
      (row :: rows, s3)

/-- The df table of mckinney-10: two string key columns and two drawn data
columns. -/
structure DfTable where
  key1 : List String
  key2 : List String
  data1 : List Int
  data2 : List Int
  deriving DecidableEq

/-- The people table of mckinney-10: five names, columns a through e, and
a 5-by-5 drawn data block. -/
structure PeopleTable where
  indexNames : List String
  colNames : List String
  data : List (List Int)
  deriving DecidableEq

/-- Embedding of the mckinney-10 cell
`np.random.seed(42)` followed by
`df = pd.DataFrame(dict of key1, key2, data1=np.random.randn(5), data2=np.random.randn(5))`,
run from an arbitrary incoming generator state. -/
def runDfCell (_incoming : RngState) : DfTable × RngState :=
  let s0 := npRandomSeed 42
  let (d1, s1) := randn 5 s0
  let (d2, s2) := randn 5 s1
  ({ key1 := ["a", "a", "b", "b", "a"],
     key2 := ["one", "two", "one", "two", "one"],
     data1 := d1, data2 := d2 }, s2)

/-- Embedding of the mckinney-10 cell
`np.random.seed(42)` followed by
`people = pd.DataFrame(data=np.random.randn(5, 5), columns=a..e, index=Joe..Travis)`,
run from an arbitrary incoming generator state. -/
def runPeopleCell (_incoming : RngState) : PeopleTable × RngState :=
  let s0 := npRandomSeed 42
  let (vals, s1) := randnMatrix 5 5 s0
  ({ indexNames := ["Joe", "Steve", "Wes", "Jim", "Travis"],
     colNames := ["a", "b", "c", "d", "e"],
     data := vals }, s1)

/-- C7: seeding the random generator with 42 immediately before
construction makes the tables df and people identical across two runs:
whatever generator states the two executions arrive with, the constructed
tables agree. -/
theorem C7_seeded_construction_deterministic (s t : RngState) :
    (runDfCell s).1 = (runDfCell t).1 ∧
    (runPeopleCell s).1 = (runPeopleCell t).1 :=
  ⟨rfl, rfl⟩


/-! ## C10: the monthly aggregate table spy_m -/

/-- A monthly-table row: an association list from column names to values,
with `none` standing for a missing value (NaN). -/
abbrev QRow := List (String × Option ℚ)

/-- The distinct elements of a list, keeping first occurrences in order
(the months the resample produces for the observed data). -/
def distinctFirst (l : List Nat) : List Nat :=
  l.foldl (fun acc m => if m ∈ acc then acc else acc ++ [m]) []

/-- The daily Return values falling in month m: one resample group of the
selected 'Return' column. -/
def monthReturns (daily : List (Nat × Option ℚ)) (m : Nat) : List (Option ℚ) :=
  (daily.filter (fun p => p.1 == m)).map Prod.snd

/-- The non-missing values of a column, which the library's mean, std and
count aggregates operate on. -/
def nonNA (vals : List (Option ℚ)) : List ℚ :=
  vals.filterMap id

/-- Mean of a list of rationals (sum over length). -/
def qMean (vs : List ℚ) : ℚ :=
  vs.sum / vs.length

/-- Embedding of `.agg(['mean','std','count'])` on one month's Return
values: one row with the three aggregate columns. The standard-deviation
aggregate `stdFn` is a parameter: its exact value is a square root,
irrational in general, and nothing in the claim depends on it. -/
def aggMonth (stdFn : List ℚ → ℚ) (daily : List (Nat × Option ℚ)) (m : Nat) : QRow :=
  let vs := nonNA (monthReturns daily m)
  [("mean", some (qMean vs)), ("std", some (stdFn vs)), ("count", some (vs.length : ℚ))]

/-- Embedding of the row filter `.query('count >= 15')`. -/
def countAtLeast15 (row : QRow) : Bool :=
  match row.lookup "count" with
  | some (some c) => decide (15 ≤ c)
  | _ => false

/-- Embedding of `.drop(columns=['count'])` on one row. -/
def dropCount (row : QRow) : QRow :=
  row.filter (fun kv => kv.1 != "count")

/-- Embedding of `.mul(100)` on one row. -/
def mul100 (row : QRow) : QRow :=
  row.map (fun kv => (kv.1, kv.2.map (fun v => 100 * v)))

/-- Embedding of the Lewinson cell
spy_m = spy.resample('M', kind='period')['Return'].agg(['mean','std','count']).query('count >= 15').drop(columns=['count']).mul(100):
one row per observed month of the daily data, indexed by month. -/
def spy_m (stdFn : List ℚ → ℚ) (daily : List (Nat × Option ℚ)) : List (Nat × QRow) :=
  (((distinctFirst (daily.map Prod.fst)).map (fun m => (m, aggMonth stdFn daily m)))
    |>.filter (fun p => countAtLeast15 p.2)
    |>.map (fun p => (p.1, mul100 (dropCount p.2))))

/-- Embedding of `.assign(mean_lag1 = lambda x: x['mean'].shift(1))`:
append a column holding the previous row's mean, missing for the first
row. -/
def withMeanLag1 (rows : List (Nat × QRow)) : List (Nat × QRow) :=
  (List.range rows.length).map (fun i =>
    match rows[i]?, i with
    | some p, 0 => (p.1, p.2 ++ [("mean_lag1", none)])
    | some p, j + 1 =>
        (p.1, p.2 ++ [("mean_lag1", (rows[j]?).bind (fun q => (q.2.lookup "mean").getD none))])
    | none, _ => (0, []))

/-- Embedding of the second spy_m construction (Lewinson, leverage-effect
section): the same pipeline followed by the mean_lag1 assignment. -/
def spy_m_lag (stdFn : List ℚ → ℚ) (daily : List (Nat × Option ℚ)) : List (Nat × QRow) :=
  withMeanLag1 (spy_m stdFn daily)

/-- The C10 claim as stated, for one monthly table: every row keeps only
the mean and standard-deviation columns. -/
def keepsOnlyMeanStd (rows : List (Nat × QRow)) : Prop :=
  ∀ p ∈ rows, p.2.map Prod.fst = ["mean", "std"]

/-- Sixteen daily observations, all in one month, all present. -/
def daily16 : List (Nat × Option ℚ) :=
  List.replicate 16 (0, some 1)

/-- Shape of every surviving row of the first spy_m pipeline: it comes
from a month with at least 15 non-missing returns, the count column is
gone, and mean and standard deviation are kept multiplied by 100. -/
theorem spy_m_row_shape (stdFn : List ℚ → ℚ) (daily : List (Nat × Option ℚ)) :
    ∀ p ∈ spy_m stdFn daily, ∃ m vs, vs = nonNA (monthReturns daily m) ∧
      15 ≤ vs.length ∧
      p = (m, [("mean", some (100 * qMean vs)), ("std", some (100 * stdFn vs))]) := by
  intro p hp
  simp only [spy_m, List.mem_map, List.mem_filter] at hp
  obtain ⟨q, ⟨hq, hcount⟩, rfl⟩ := hp
  obtain ⟨m, _hm, rfl⟩ := hq
  refine ⟨m, nonNA (monthReturns daily m), rfl, ?_, ?_⟩
  · have hred : countAtLeast15 (aggMonth stdFn daily m)
        = decide (15 ≤ ((nonNA (monthReturns daily m)).length : ℚ)) := rfl
    rw [hred] at hcount
    exact_mod_cast of_decide_eq_true hcount
  · simp [aggMonth, dropCount, mul100]

/-- Shape of every row of the second spy_m pipeline: the same two scaled
aggregate columns followed by the appended mean_lag1 column. -/
theorem spy_m_lag_row_shape (stdFn : List ℚ → ℚ) (daily : List (Nat × Option ℚ)) :
    ∀ p ∈ spy_m_lag stdFn daily, ∃ m vs lag, vs = nonNA (monthReturns daily m) ∧
      15 ≤ vs.length ∧
      p = (m, [("mean", some (100 * qMean vs)), ("std", some (100 * stdFn vs)),
               ("mean_lag1", lag)]) := by
  intro p hp
  simp only [spy_m_lag, withMeanLag1, List.mem_map, List.mem_range] at hp
  obtain ⟨i, hi, heq⟩ := hp
  have hsome : (spy_m stdFn daily)[i]? = some ((spy_m stdFn daily).get ⟨i, hi⟩) := by
    simp [List.getElem?_eq_getElem hi]
  have hmem : (spy_m stdFn daily).get ⟨i, hi⟩ ∈ spy_m stdFn daily :=
    List.get_mem _ _ _
  obtain ⟨m, vs, hvs, hlen, hq⟩ := spy_m_row_shape stdFn daily _ hmem
  cases i with
  | zero =>
    rw [hsome] at heq
    refine ⟨m, vs, none, hvs, hlen, ?_⟩
    rw [← heq, hq]
    rfl
  | succ j =>
    rw [hsome] at heq
    refine ⟨m, vs,
      ((spy_m stdFn daily)[j]?.bind fun q => (List.lookup "mean" q.2).getD none),
      hvs, hlen, ?_⟩
    rw [← heq, hq]
    rfl

/-- C10 counterexample: the second spy_m construction, cited by the claim,
does not keep only the mean and standard deviation: on sixteen one-month
observations it produces a row that also carries the mean_lag1 column. -/
theorem C10_counterexample_lag_column :
    ¬ keepsOnlyMeanStd (spy_m_lag (fun _ => 0) daily16) := by
  intro h
  have hlen : (spy_m_lag (fun _ => 0) daily16).length = 1 := by decide
  obtain ⟨p, rest, heq⟩ :=
    List.exists_cons_of_ne_nil (l := spy_m_lag (fun _ => 0) daily16)
      (by intro hnil; rw [hnil] at hlen; simp at hlen)
  have hp : p ∈ spy_m_lag (fun _ => 0) daily16 := by
    rw [heq]; exact List.mem_cons_self _ _
  have hkeys := h p hp
  obtain ⟨m, vs, lag, _, _, hshape⟩ := spy_m_lag_row_shape (fun _ => 0) daily16 p hp
  rw [hshape] at hkeys
  simp at hkeys

/-- C10 amended: every row of both monthly aggregate tables spy_m is built
from a calendar month with at least 15 non-missing daily return
observations; the helper count column is dropped, and the monthly mean and
standard deviation of daily returns are kept multiplied by 100; the first
construction keeps exactly those two columns, while the second
additionally keeps the mean_lag1 helper column (the one-month lag of the
scaled mean). -/
theorem C10_amended_monthly_aggregate (stdFn : List ℚ → ℚ)
    (daily : List (Nat × Option ℚ)) :
    (∀ p ∈ spy_m stdFn daily, ∃ m vs, vs = nonNA (monthReturns daily m) ∧
        15 ≤ vs.length ∧
        p = (m, [("mean", some (100 * qMean vs)), ("std", some (100 * stdFn vs))])) ∧
    (∀ p ∈ spy_m_lag stdFn daily, ∃ m vs lag, vs = nonNA (monthReturns daily m) ∧
        15 ≤ vs.length ∧
        p = (m, [("mean", some (100 * qMean vs)), ("std", some (100 * stdFn vs)),
                 ("mean_lag1", lag)])) :=
  ⟨spy_m_row_shape stdFn daily, spy_m_lag_row_shape stdFn daily⟩


/-- Witness for C9 at a concrete three-row dataframe, column data1, n = 2. -/
theorem C9_top_smallest_n_witness :
    (top [[("data1", 5)], [("data1", 2)], [("data1", 9)]] "data1" 2).length ≤ 2 ∧
    (∀ r ∈ top [[("data1", 5)], [("data1", 2)], [("data1", 9)]] "data1" 2,
       r ∈ [[("data1", 5)], [("data1", 2)], [("data1", 9)]]) ∧
    List.Pairwise (fun r s => colVal "data1" r ≤ colVal "data1" s)
      (top [[("data1", 5)], [("data1", 2)], [("data1", 9)]] "data1" 2) ∧
    (∃ rest,
      (top [[("data1", 5)], [("data1", 2)], [("data1", 9)]] "data1" 2 ++ rest).Perm
        [[("data1", 5)], [("data1", 2)], [("data1", 9)]] ∧
      ∀ r ∈ top [[("data1", 5)], [("data1", 2)], [("data1", 9)]] "data1" 2,
        ∀ s ∈ rest, colVal "data1" r ≤ colVal "data1" s) :=
  C9_top_smallest_n [[("data1", 5)], [("data1", 2)], [("data1", 9)]] "data1" 2

/-- Witness for C7 at two distinct incoming generator states. -/
theorem C7_seeded_construction_deterministic_witness :
    (runDfCell 0).1 = (runDfCell 987654321).1 ∧
    (runPeopleCell 0).1 = (runPeopleCell 987654321).1 :=
  C7_seeded_construction_deterministic 0 987654321

/-- Witness for the amended C10 at a concrete zero standard-deviation
aggregator and sixteen one-month observations. -/
theorem C10_amended_monthly_aggregate_witness :
    (∀ p ∈ spy_m (fun _ => 0) daily16, ∃ m vs, vs = nonNA (monthReturns daily16 m) ∧
        15 ≤ vs.length ∧
        p = (m, [("mean", some (100 * qMean vs)),
                 ("std", some (100 * (fun _ : List ℚ => (0 : ℚ)) vs))])) ∧
    (∀ p ∈ spy_m_lag (fun _ => 0) daily16, ∃ m vs lag, vs = nonNA (monthReturns daily16 m) ∧
        15 ≤ vs.length ∧
        p = (m, [("mean", some (100 * qMean vs)),
                 ("std", some (100 * (fun _ : List ℚ => (0 : ℚ)) vs)),
                 ("mean_lag1", lag)])) :=
  C10_amended_monthly_aggregate (fun _ => 0) daily16

